import Mathlib

/-
Verification of the provider-dispatch and workflow-state logic of the
PPC Landing Page Generator repository.

The development shallowly embeds the Python sources:
  - src/ai_providers/ai_manager.py   (AIManager: provider routing, retry, normalization)
  - src/utils/state_management.py    (StateManager: step flags, current step, import/export)
  - src/app.py                       (sidebar navigation, Previous/Next buttons, load_project)
plus the JSON extraction helper described in the design document (its host
module, outputs/output_generator.py, is not part of the sources).

Python dictionaries are modelled as insertion-ordered association lists over
a JSON-like value type; machine integers are Lean Int (Python ints are
unbounded, so no wrap-around modelling is needed); random.uniform draws and
datetime.now() timestamps are threaded as explicit parameters; code that may
raise an exception past its own handler returns an explicit outcome variant.
-/

/-- JSON-like values: the payloads stored in st.session_state.workflow_data
and the documents produced by json.loads / consumed by json.dumps. Numeric
literals are modelled as integers (the state only ever stores ints). -/
inductive Json where
  | null : Json
  | bool (b : Bool) : Json
  | num (n : Int) : Json
  | str (s : String) : Json
  | arr (xs : List Json) : Json
  | obj (kvs : List (String × Json)) : Json

/-- A Python dict with string keys, as an insertion-ordered association list
(Python dicts preserve insertion order; keys are unique in any dict built by
the interpreter). -/
abbrev PyDict := List (String × Json)

/-- Python d[k] / d.get(k): the value bound to the first occurrence of k. -/
def dictGet (d : PyDict) (k : String) : Option Json :=
  (d.find? (fun p => p.1 == k)).map (fun p => p.2)

/-- Python d[k] = v: replace in place if the key exists, else append. -/
def dictSet : PyDict → String → Json → PyDict
  | [], k, v => [(k, v)]
  | (k', v') :: rest, k, v =>
      if k' == k then (k', v) :: rest else (k', v') :: dictSet rest k v

/-- Python k in d for a dict d. -/
def dictHasKey (d : PyDict) (k : String) : Bool :=
  d.any (fun p => p.1 == k)

/-- Python d.update(other): fold the other dict's pairs into d in order. -/
def dictUpdate (d : PyDict) (other : List (String × Json)) : PyDict :=
  other.foldl (fun acc kv => dictSet acc kv.1 kv.2) d

/-- Remove a key (used only to state round-trip claims modulo a key). -/
def dictErase (d : PyDict) (k : String) : PyDict :=
  d.filter (fun p => !(p.1 == k))

/-- True exactly when the lookup produced the boolean True. -/
def isTrueFlag : Option Json → Bool
  | some (Json.bool true) => true
  | _ => false

/-- Extract a string-valued field (used to compare states field-wise). -/
def getStrField (d : PyDict) (k : String) : Option String :=
  match dictGet d k with
  | some (Json.str s) => some s
  | _ => none

/-- Does the first list begin with the second one? -/
def listStarts : List Char → List Char → Bool
  | _, [] => true
  | [], _ :: _ => false
  | c :: cs, p :: ps => c == p && listStarts cs ps

/-- Python str.startswith, computed on the underlying character lists. -/
def startsWithPy (s pat : String) : Bool :=
  listStarts s.toList pat.toList

/-- Does pat occur as a contiguous substring (Python pat in s for strings)? -/
def listHasSub (pat : List Char) : List Char → Bool
  | [] => pat.isEmpty
  | c :: cs => listStarts (c :: cs) pat || listHasSub pat cs

/-- Python substring membership test pat in s. -/
def strContainsSub (s pat : String) : Bool :=
  listHasSub pat.toList s.toList

/-- The three remote providers of ai_manager.py. -/
inductive Backend where
  | openai : Backend
  | anthropic : Backend
  | gemini : Backend
deriving DecidableEq

/-- The availability flags computed by AIManager.setup_api_clients. -/
structure Availability where
  openai_available : Bool
  anthropic_available : Bool
  gemini_available : Bool

/-- Is a given backend marked available? -/
def availableFor (a : Availability) : Backend → Bool
  | Backend.openai => a.openai_available
  | Backend.anthropic => a.anthropic_available
  | Backend.gemini => a.gemini_available

/-- The dict returned by generate_content and the _generate_* helpers:
a record of the optional keys the various return sites populate. -/
structure GenResult where
  content : Option String
  model_used : Option String
  tokens_used : Option Int
  error : Option String
  success : Bool
deriving DecidableEq

/-- An error-shaped result: only the error key and success=False. -/
def errorResult (msg : String) : GenResult :=
  { content := none, model_used := none, tokens_used := none,
    error := some msg, success := false }

/-- The successful OpenAI chat-completions reply fields read by the code. -/
structure OpenAIResponse where
  content : String
  total_tokens : Int

/-- The successful Anthropic messages reply fields read by the code. -/
structure AnthropicResponse where
  content : String
  input_tokens : Int
  output_tokens : Int

/-- The successful Gemini reply field read by the code. -/
structure GeminiResponse where
  text : String

/-- AIManager._generate_openai (ai_manager.py lines 192-212): the argument
models the API call, which either returns a reply or raises (the error case
of Except, caught by the helper's own try/except). -/
def generate_openai (model : String) (call : Except String OpenAIResponse) : GenResult :=
  match call with
  | Except.ok r =>
      { content := some r.content, model_used := some model,
        tokens_used := some r.total_tokens, error := none, success := true }
  | Except.error e => errorResult ("OpenAI API error: " ++ e)

/-- AIManager._generate_gemini (ai_manager.py lines 214-237): the model name
is hard-coded and tokens are estimated as len(text) // 4. -/
def generate_gemini (call : Except String GeminiResponse) : GenResult :=
  match call with
  | Except.ok r =>
      { content := some r.text, model_used := some "gemini-1.5-pro",
        tokens_used := some ((r.text.length / 4 : Nat) : Int), error := none, success := true }
  | Except.error e => errorResult ("Gemini API error: " ++ e)

/-- AIManager._generate_anthropic (ai_manager.py lines 239-259). Note that
line 255 of the source sets success to False on the path that successfully
obtained content, unlike the other two helpers. -/
def generate_anthropic (model : String) (call : Except String AnthropicResponse) : GenResult :=
  match call with
  | Except.ok r =>
      { content := some r.content, model_used := some model,
        tokens_used := some (r.input_tokens + r.output_tokens), error := none,
        success := false }
  | Except.error e => errorResult ("Anthropic API error: " ++ e)

/-- The backend resolved by one iteration of the loop in
AIManager.generate_content (ai_manager.py lines 166-181), together with the
model name passed to the helper (the Gemini helper hard-codes its model).
The final None corresponds to the dead else branch at line 181. -/
def chooseBackend (a : Availability) (model : String) : Option (Backend × String) :=
  if startsWithPy model "gpt" && a.openai_available then
    some (Backend.openai, model)
  else if startsWithPy model "claude" && a.anthropic_available then
    some (Backend.anthropic, model)
  else if startsWithPy model "gemini" && a.gemini_available then
    some (Backend.gemini, "gemini-1.5-pro")
  else if a.openai_available then
    some (Backend.openai, "gpt-4")
  else if a.gemini_available then
    some (Backend.gemini, "gemini-1.5-pro")
  else if a.anthropic_available then
    some (Backend.anthropic, "claude-3-5-sonnet-20240620")
  else
    none

/-- What one backend invocation does, seen from the retry loop: the helper
returns a result dict, or an exception propagates to the loop's except
clause (line 183). -/
inductive AttemptOutcome where
  | returns (r : GenResult)
  | raises (msg : String)

/-- The for-attempt-in-range(3) loop of generate_content (lines 164-190),
over the list of remaining attempt indices. Besides the result, the run
collects the list of time.sleep durations and the list of backend
invocations (backend, model) actually performed. -/
def genLoop (a : Availability) (model : String)
    (invoke : Nat → Backend → String → AttemptOutcome) (rand : Nat → ℚ) :
    List Nat → GenResult × List ℚ × List (Backend × String)
  | [] => (errorResult "Unexpected error", [], [])
  | attempt :: rest =>
    match chooseBackend a model with
    | none => (errorResult "No available providers", [], [])
    | some (b, m) =>
      match invoke attempt b m with
      | AttemptOutcome.returns r => (r, [], [(b, m)])
      | AttemptOutcome.raises e =>
        if attempt == 2 then
          (errorResult ("Failed after 3 attempts: " ++ e), [], [(b, m)])
        else
          let out := genLoop a model invoke rand rest
          (out.1, rand attempt :: out.2.1, (b, m) :: out.2.2)

/-- AIManager.generate_content (ai_manager.py lines 153-190). The invoke
argument gives the outcome of each potential backend invocation per attempt;
rand gives the random.uniform(1, 3) draw used by the sleep before retry
number attempt+1. -/
def generate_content (a : Availability) (model : String)
    (invoke : Nat → Backend → String → AttemptOutcome) (rand : Nat → ℚ) :
    GenResult × List ℚ × List (Backend × String) :=
  if !(a.openai_available || a.anthropic_available || a.gemini_available) then
    (errorResult "No AI providers available. Please configure API keys in Streamlit Cloud secrets.",
     [], [])
  else
    genLoop a model invoke rand [0, 1, 2]

lemma chooseBackend_available {a : Availability} {model : String} {p : Backend × String}
    (h : chooseBackend a model = some p) : availableFor a p.1 = true := by
  unfold chooseBackend at h
  split_ifs at h with h1 h2 h3 h4 h5 h6 <;>
    simp only [Option.some.injEq] at h <;>
    (try subst h) <;>
    simp only [availableFor] <;>
    simp_all [Bool.and_eq_true]

lemma chooseBackend_isSome {a : Availability} (model : String)
    (hA : (a.openai_available || a.anthropic_available || a.gemini_available) = true) :
    ∃ p, chooseBackend a model = some p := by
  unfold chooseBackend
  split_ifs with h1 h2 h3 h4 h5 h6 <;> first | exact ⟨_, rfl⟩ | simp_all

lemma genLoop_trace_head {a : Availability} {model : String}
    {invoke : Nat → Backend → String → AttemptOutcome} {rand : Nat → ℚ}
    {p : Backend × String} (hp : chooseBackend a model = some p)
    (attempt : Nat) (rest : List Nat) :
    ((genLoop a model invoke rand (attempt :: rest)).2.2).head? = some p := by
  obtain ⟨b, m⟩ := p
  rcases hI : invoke attempt b m with r | e
  · simp [genLoop, hp, hI]
  · simp only [genLoop, hp, hI]
    split <;> simp

lemma genLoop_trace_mem {a : Availability} {model : String}
    {invoke : Nat → Backend → String → AttemptOutcome} {rand : Nat → ℚ} :
    ∀ (l : List Nat) (p : Backend × String), p ∈ (genLoop a model invoke rand l).2.2 →
      chooseBackend a model = some p := by
  intro l
  induction l with
  | nil => intro p hp; simp [genLoop] at hp
  | cons attempt rest ih =>
    intro p hp
    rcases hcb : chooseBackend a model with _ | q
    · simp [genLoop, hcb] at hp
    · obtain ⟨b, m⟩ := q
      rcases hI : invoke attempt b m with r | e
      · simp [genLoop, hcb, hI] at hp
        simp [hp]
      · simp only [genLoop, hcb, hI] at hp
        rcases h2 : (attempt == 2) with _ | _
        · simp [h2] at hp
          rcases hp with hp | hp
          · simp [hp]
          · rw [← hcb]; exact ih p hp
        · simp [h2] at hp
          simp [hp]

lemma genLoop_trace_len {a : Availability} {model : String}
    {invoke : Nat → Backend → String → AttemptOutcome} {rand : Nat → ℚ} :
    ∀ l : List Nat, ((genLoop a model invoke rand l).2.2).length ≤ l.length := by
  intro l
  induction l with
  | nil => simp [genLoop]
  | cons attempt rest ih =>
    rcases hcb : chooseBackend a model with _ | q
    · simp [genLoop, hcb]
    · obtain ⟨b, m⟩ := q
      rcases hI : invoke attempt b m with r | e
      · simp [genLoop, hcb, hI]
      · simp only [genLoop, hcb, hI]
        split
        · simp
        · simpa using Nat.succ_le_succ ih

lemma listStarts_claude_not_gpt {l : List Char}
    (h : listStarts l ('c' :: "laude".toList) = true) :
    listStarts l ('g' :: "pt".toList) = false := by
  cases l with
  | nil => simp [listStarts] at h
  | cons c cs =>
    simp [listStarts] at h ⊢
    intro hc
    simp [hc] at h

lemma listStarts_gemini_not_gpt {l : List Char}
    (h : listStarts l ('g' :: 'e' :: "mini".toList) = true) :
    listStarts l ('g' :: 'p' :: "t".toList) = false := by
  cases l with
  | nil => simp [listStarts] at h
  | cons c cs =>
    cases cs with
    | nil => simp [listStarts] at h
    | cons c2 cs2 =>
      simp [listStarts] at h ⊢
      intro hc hc2
      simp [hc2] at h

lemma listStarts_gemini_not_claude {l : List Char}
    (h : listStarts l ('g' :: "emini".toList) = true) :
    listStarts l ('c' :: "laude".toList) = false := by
  cases l with
  | nil => simp [listStarts] at h
  | cons c cs =>
    simp [listStarts] at h ⊢
    intro hc
    simp [hc] at h

lemma claude_not_gpt {model : String} (h : startsWithPy model "claude" = true) :
    startsWithPy model "gpt" = false :=
  listStarts_claude_not_gpt h

lemma gemini_not_gpt {model : String} (h : startsWithPy model "gemini" = true) :
    startsWithPy model "gpt" = false :=
  listStarts_gemini_not_gpt h

lemma gemini_not_claude {model : String} (h : startsWithPy model "gemini" = true) :
    startsWithPy model "claude" = false :=
  listStarts_gemini_not_claude h

lemma generate_content_head {a : Availability} {model : String}
    {invoke : Nat → Backend → String → AttemptOutcome} {rand : Nat → ℚ}
    {p : Backend × String} (hp : chooseBackend a model = some p) :
    ((generate_content a model invoke rand).2.2).head? = some p := by
  have hav := chooseBackend_available hp
  have hA : (a.openai_available || a.anthropic_available || a.gemini_available) = true := by
    obtain ⟨b, m⟩ := p
    cases b <;> simp [availableFor] at hav <;> simp [hav]
  unfold generate_content
  rw [hA]
  simpa using genLoop_trace_head hp 0 [1, 2]

/-- C1: if the requested model name carries a recognized backend tag (gpt for
OpenAI, claude for Anthropic, gemini for Gemini) and that backend is
available, generate_content invokes exactly that backend first; if no
available backend matches, it invokes the first available backend in the
fixed order OpenAI, Gemini, Anthropic; and it never invokes an unavailable
backend. -/
theorem generate_content_routing (a : Availability) (model : String)
    (invoke : Nat → Backend → String → AttemptOutcome) (rand : Nat → ℚ) :
    (startsWithPy model "gpt" = true → a.openai_available = true →
       ((generate_content a model invoke rand).2.2).head? = some (Backend.openai, model))
  ∧ (startsWithPy model "claude" = true → a.anthropic_available = true →
       ((generate_content a model invoke rand).2.2).head? = some (Backend.anthropic, model))
  ∧ (startsWithPy model "gemini" = true → a.gemini_available = true →
       ((generate_content a model invoke rand).2.2).head? =
         some (Backend.gemini, "gemini-1.5-pro"))
  ∧ ((startsWithPy model "gpt" = true → a.openai_available = false) →
     (startsWithPy model "claude" = true → a.anthropic_available = false) →
     (startsWithPy model "gemini" = true → a.gemini_available = false) →
       (a.openai_available = true →
          ((generate_content a model invoke rand).2.2).head? = some (Backend.openai, "gpt-4"))
     ∧ (a.openai_available = false → a.gemini_available = true →
          ((generate_content a model invoke rand).2.2).head? =
            some (Backend.gemini, "gemini-1.5-pro"))
     ∧ (a.openai_available = false → a.gemini_available = false →
        a.anthropic_available = true →
          ((generate_content a model invoke rand).2.2).head? =
            some (Backend.anthropic, "claude-3-5-sonnet-20240620")))
  ∧ (∀ p ∈ (generate_content a model invoke rand).2.2, availableFor a p.1 = true) := by
  refine ⟨?_, ?_, ?_, ?_, ?_⟩
  · intro h1 h2
    apply generate_content_head
    unfold chooseBackend
    simp [h1, h2]
  · intro h1 h2
    apply generate_content_head
    unfold chooseBackend
    simp [h1, h2, claude_not_gpt h1]
  · intro h1 h2
    apply generate_content_head
    unfold chooseBackend
    simp [h1, h2, gemini_not_gpt h1, gemini_not_claude h1]
  · intro hg hc hm
    have hcond2 : (startsWithPy model "claude" && a.anthropic_available) = false := by
      rcases h : startsWithPy model "claude" with _ | _
      · simp
      · simp [hc h]
    have hcond3 : (startsWithPy model "gemini" && a.gemini_available) = false := by
      rcases h : startsWithPy model "gemini" with _ | _
      · simp
      · simp [hm h]
    refine ⟨?_, ?_, ?_⟩
    · intro h1
      have hf1 : startsWithPy model "gpt" = false := by
        rcases h : startsWithPy model "gpt" with _ | _
        · rfl
        · simp [hg h] at h1
      apply generate_content_head
      unfold chooseBackend
      simp [hf1, hcond2, hcond3, h1]
    · intro h1 h2
      have hf3 : startsWithPy model "gemini" = false := by
        rcases h : startsWithPy model "gemini" with _ | _
        · rfl
        · simp [hm h] at h2
      apply generate_content_head
      unfold chooseBackend
      simp [h1, hcond2, hf3, h2]
    · intro h1 h2 h3
      have hf2 : startsWithPy model "claude" = false := by
        rcases h : startsWithPy model "claude" with _ | _
        · rfl
        · simp [hc h] at h3
      apply generate_content_head
      unfold chooseBackend
      simp [h1, hf2, h2, h3]
  · intro p hp
    unfold generate_content at hp
    split at hp
    · simp at hp
    · exact chooseBackend_available (genLoop_trace_mem [0, 1, 2] p hp)

/-- Witness for C1: with all three backends available and a claude model
requested, the first invocation goes to Anthropic with that very model. -/
theorem generate_content_routing_witness :
    ((generate_content ⟨true, true, true⟩ "claude-3-5-sonnet-20240620"
        (fun _ _ _ => AttemptOutcome.returns (errorResult "x")) (fun _ => 2)).2.2).head? =
      some (Backend.anthropic, "claude-3-5-sonnet-20240620") :=
  (generate_content_routing ⟨true, true, true⟩ "claude-3-5-sonnet-20240620"
    (fun _ _ _ => AttemptOutcome.returns (errorResult "x")) (fun _ => 2)).2.1 rfl rfl

/-- C2 (code bug in ai_manager.py line 255): the Anthropic normalization
path that successfully obtained content returns success = False, so the
result populates content with no error yet success is False — contradicting
the tagged-union invariant under which any result carrying content without
an error has success = True. -/
theorem anthropic_success_flag_inverted :
    (generate_anthropic "claude-3-5-sonnet-20240620"
        (Except.ok { content := "Hello", input_tokens := 10, output_tokens := 20 })).content =
      some "Hello"
  ∧ (generate_anthropic "claude-3-5-sonnet-20240620"
        (Except.ok { content := "Hello", input_tokens := 10, output_tokens := 20 })).error =
      none
  ∧ (generate_anthropic "claude-3-5-sonnet-20240620"
        (Except.ok { content := "Hello", input_tokens := 10, output_tokens := 20 })).success =
      false :=
  ⟨rfl, rfl, rfl⟩

/-- C3: with no backend available, generate_content returns the no-providers
Failure immediately: no backend invocation, no sleep, no retry. -/
theorem generate_content_no_providers_immediate
    (model : String) (invoke : Nat → Backend → String → AttemptOutcome) (rand : Nat → ℚ) :
    generate_content ⟨false, false, false⟩ model invoke rand =
      (errorResult
         "No AI providers available. Please configure API keys in Streamlit Cloud secrets.",
       [], []) :=
  rfl

/-- C4: when every backend invocation raises a transport error,
generate_content performs exactly 3 attempts (and never more than 3 for any
behavior), sleeps once before each of the 2 retries for a duration drawn
from the interval 1 to 3, accumulating between 2 and 6 time units of sleep,
and finally returns the Failure reporting 3 failed attempts with the last
cause. -/
theorem generate_content_retry_exhaustion
    (a : Availability) (model : String)
    (invoke invoke2 : Nat → Backend → String → AttemptOutcome)
    (rand : Nat → ℚ) (errs : Nat → String)
    (hA : (a.openai_available || a.anthropic_available || a.gemini_available) = true)
    (hI : ∀ k b m, invoke k b m = AttemptOutcome.raises (errs k))
    (hR : ∀ k, 1 ≤ rand k ∧ rand k ≤ 3) :
    ((generate_content a model invoke2 rand).2.2).length ≤ 3
  ∧ ((generate_content a model invoke rand).2.2).length = 3
  ∧ (generate_content a model invoke rand).2.1 = [rand 0, rand 1]
  ∧ (1 ≤ rand 0 ∧ rand 0 ≤ 3) ∧ (1 ≤ rand 1 ∧ rand 1 ≤ 3)
  ∧ 2 ≤ rand 0 + rand 1 ∧ rand 0 + rand 1 ≤ 6
  ∧ (generate_content a model invoke rand).1 =
      errorResult ("Failed after 3 attempts: " ++ errs 2) := by
  obtain ⟨p, hp⟩ := chooseBackend_isSome model hA
  obtain ⟨b, m⟩ := p
  have hrun : generate_content a model invoke rand =
      (errorResult ("Failed after 3 attempts: " ++ errs 2), [rand 0, rand 1],
       [(b, m), (b, m), (b, m)]) := by
    unfold generate_content
    rw [hA]
    simp [genLoop, hp, hI 0 b m, hI 1 b m, hI 2 b m]
  have h0 := hR 0
  have h1 := hR 1
  refine ⟨?_, by simp [hrun], by simp [hrun], h0, h1, by linarith, by linarith, by simp [hrun]⟩
  unfold generate_content
  split
  · simp
  · simpa using genLoop_trace_len [0, 1, 2]

/-- Witness for C4 at concrete inputs: OpenAI available, every invocation
raises, and every uniform draw equal to 2. -/
theorem generate_content_retry_exhaustion_witness :
    ((generate_content ⟨true, false, false⟩ "gpt-4"
        (fun _ _ _ => AttemptOutcome.returns (errorResult "x")) (fun _ => 2)).2.2).length ≤ 3
  ∧ ((generate_content ⟨true, false, false⟩ "gpt-4"
        (fun k _ _ => AttemptOutcome.raises ("boom " ++ toString k)) (fun _ => 2)).2.2).length = 3
  ∧ (generate_content ⟨true, false, false⟩ "gpt-4"
        (fun k _ _ => AttemptOutcome.raises ("boom " ++ toString k)) (fun _ => 2)).2.1 = [2, 2]
  ∧ ((1 : ℚ) ≤ 2 ∧ (2 : ℚ) ≤ 3) ∧ ((1 : ℚ) ≤ 2 ∧ (2 : ℚ) ≤ 3)
  ∧ (2 : ℚ) ≤ 2 + 2 ∧ (2 : ℚ) + 2 ≤ 6
  ∧ (generate_content ⟨true, false, false⟩ "gpt-4"
        (fun k _ _ => AttemptOutcome.raises ("boom " ++ toString k)) (fun _ => 2)).1 =
      errorResult ("Failed after 3 attempts: " ++ ("boom " ++ toString 2)) :=
  generate_content_retry_exhaustion ⟨true, false, false⟩ "gpt-4"
    (fun k _ _ => AttemptOutcome.raises ("boom " ++ toString k))
    (fun _ _ _ => AttemptOutcome.returns (errorResult "x"))
    (fun _ => 2) (fun k => "boom " ++ toString k)
    rfl (fun _ _ _ => rfl) (fun _ => ⟨by norm_num, by norm_num⟩)

/-- StateManager.default_workflow_data (state_management.py lines 10-46);
now stands for the datetime.now().isoformat() timestamps taken at
construction. -/
def default_workflow_data (now : String) : PyDict :=
  [("project_name", Json.str ""),
   ("selected_model", Json.str "gemini-1.5-pro"),
   ("current_step", Json.num 1),
   ("created_at", Json.str now),
   ("last_updated", Json.str now),
   ("step_1_completed", Json.bool false),
   ("step_2_completed", Json.bool false),
   ("step_3_completed", Json.bool false),
   ("step_4_completed", Json.bool false),
   ("step_5_completed", Json.bool false),
   ("step_6_completed", Json.bool false),
   ("step_7_completed", Json.bool false),
   ("step_8_completed", Json.bool false),
   ("step_1_data", Json.obj []),
   ("step_2_data", Json.obj []),
   ("step_3_data", Json.obj []),
   ("step_4_data", Json.obj []),
   ("step_5_data", Json.obj []),
   ("step_6_data", Json.obj []),
   ("step_7_data", Json.obj []),
   ("step_8_data", Json.obj []),
   ("options", Json.obj
     [("include_agitation_module", Json.bool true),
      ("include_comparison_table", Json.bool true),
      ("include_audience_qualifier", Json.bool true),
      ("include_before_after_slider", Json.bool false),
      ("page_type", Json.str "affiliate"),
      ("product_type", Json.str "supplement")])]

/-- StateManager.initialize_session_state (state_management.py lines 48-61)
applied to an already-existing workflow_data dict: back-fill any default key
that is missing, never overwriting present values. -/
def init_session_state (now : String) (s : PyDict) : PyDict :=
  (default_workflow_data now).foldl
    (fun acc kv => if dictHasKey acc kv.1 then acc else dictSet acc kv.1 kv.2) s

/-- StateManager.mark_step_completed (state_management.py lines 63-74). -/
def mark_step_completed (step_number : Int) (now : String) (s : PyDict) : PyDict :=
  if 1 ≤ step_number ∧ step_number ≤ 8 then
    let s1 := dictSet s ("step_" ++ toString step_number ++ "_completed") (Json.bool true)
    let s2 := dictSet s1 "last_updated" (Json.str now)
    if step_number < 8 then dictSet s2 "current_step" (Json.num (step_number + 1)) else s2
  else s

/-- StateManager.save_step_data (state_management.py lines 76-83). -/
def save_step_data (step_number : Int) (data : Json) (now : String) (s : PyDict) : PyDict :=
  if 1 ≤ step_number ∧ step_number ≤ 8 then
    dictSet (dictSet s ("step_" ++ toString step_number ++ "_data") data)
      "last_updated" (Json.str now)
  else s

/-- StateManager.set_current_step (state_management.py lines 111-117). -/
def set_current_step (step_number : Int) (s : PyDict) : PyDict :=
  if 1 ≤ step_number ∧ step_number ≤ 8 then
    dictSet s "current_step" (Json.num step_number)
  else s

/-- StateManager.export_project_state (state_management.py lines 160-168):
the workflow dict is copied, an exported_at timestamp is added, and the
result is serialized with json.dumps. The json.dumps / json.loads pair is
modelled as the identity on the document, so the export is represented by
the document itself. -/
def export_project_state (now : String) (s : PyDict) : PyDict :=
  dictSet s "exported_at" (Json.str now)

/-- Python's membership test field in doc for a parsed JSON document: key
lookup on a dict, element equality on a list, substring test on a string;
None models the TypeError that int/float/bool/None documents raise. -/
def jsonFieldTest : Json → String → Option Bool
  | Json.obj kvs, f => some (dictHasKey kvs f)
  | Json.arr xs, f =>
      some (xs.any (fun j => match j with | Json.str s => s == f | _ => false))
  | Json.str t, f => some (strContainsSub t f)
  | _, _ => none

/-- The outcome of import_project_state: the Bool the function returned
together with the workflow dict afterwards, or an exception that escaped
its except (json.JSONDecodeError, KeyError) clause. -/
inductive ImportOutcome where
  | ret (returned : Bool) (state : PyDict)
  | raised (state : PyDict)

/-- StateManager.import_project_state (state_management.py lines 170-190).
The doc argument is the json.loads result, none when parsing fails (the
JSONDecodeError path, which returns False). Validation checks project_name
then current_step; on success the document is shallow-merged into the state
and last_updated is refreshed to the import time. A non-dict document with
both field tests passing makes dict.update raise; the raised state is
modelled as unchanged (dict.update aborts on the first ill-formed element).
-/
def import_project_state (doc : Option Json) (now : String) (s : PyDict) : ImportOutcome :=
  match doc with
  | none => ImportOutcome.ret false s
  | some j =>
    match jsonFieldTest j "project_name" with
    | none => ImportOutcome.raised s
    | some false => ImportOutcome.ret false s
    | some true =>
      match jsonFieldTest j "current_step" with
      | none => ImportOutcome.raised s
      | some false => ImportOutcome.ret false s
      | some true =>
        match j with
        | Json.obj kvs =>
            ImportOutcome.ret true (dictSet (dictUpdate s kvs) "last_updated" (Json.str now))
        | _ => ImportOutcome.raised s

/-- The state after an import, whatever the outcome. -/
def importedState : ImportOutcome → PyDict
  | ImportOutcome.ret _ st => st
  | ImportOutcome.raised st => st

/-- Did import_project_state return True? -/
def importReturnedTrue : ImportOutcome → Bool
  | ImportOutcome.ret b _ => b
  | ImportOutcome.raised _ => false

/-- The outcome of app.py's load_project (lines 258-274): the uploaded
document was merged and the success message shown, or the bare except
caught an error (no file, invalid JSON, or dict.update on a non-dict). -/
inductive LoadOutcome where
  | loaded (state : PyDict)
  | failed (state : PyDict)

/-- app.py load_project (lines 258-274): json.loads the uploaded file and
shallow-merge it into workflow_data with no validation at all; any
exception is caught and leaves the success path untaken. -/
def load_project (doc : Option Json) (s : PyDict) : LoadOutcome :=
  match doc with
  | none => LoadOutcome.failed s
  | some (Json.obj kvs) => LoadOutcome.loaded (dictUpdate s kvs)
  | some _ => LoadOutcome.failed s

lemma dictGet_cons (k' : String) (v' : Json) (rest : PyDict) (k : String) :
    dictGet ((k', v') :: rest) k =
      if k' = k then some v' else dictGet rest k := by
  by_cases h : k' = k
  · simp [dictGet, List.find?, h]
  · have hb : (k' == k) = false := by simp [h]
    simp [dictGet, List.find?, hb, h]

lemma dictGet_dictSet_self (s : PyDict) (k : String) (v : Json) :
    dictGet (dictSet s k v) k = some v := by
  induction s with
  | nil => simp [dictSet, dictGet_cons]
  | cons p rest ih =>
    obtain ⟨k', v'⟩ := p
    by_cases h : k' = k
    · simp [dictSet, h, dictGet_cons]
    · simp [dictSet, h, dictGet_cons, ih]

lemma dictGet_dictSet_ne (s : PyDict) (k k' : String) (v : Json) (h : k' ≠ k) :
    dictGet (dictSet s k v) k' = dictGet s k' := by
  have hsym : ¬ (k = k') := fun he => h he.symm
  induction s with
  | nil => simp [dictSet, dictGet_cons, dictGet, hsym]
  | cons p rest ih =>
    obtain ⟨k0, v0⟩ := p
    by_cases h0 : k0 = k
    · subst h0
      simp [dictSet, dictGet_cons, hsym]
    · simp [dictSet, h0, dictGet_cons, ih]

lemma dictHasKey_of_dictGet {s : PyDict} {k : String} {v : Json}
    (h : dictGet s k = some v) : dictHasKey s k = true := by
  induction s with
  | nil => simp [dictGet] at h
  | cons p rest ih =>
    obtain ⟨k0, v0⟩ := p
    rw [dictGet_cons] at h
    by_cases h0 : k0 = k
    · simp [dictHasKey, h0]
    · simp only [h0, if_false] at h
      have hr := ih h
      simp only [dictHasKey, List.any_cons] at hr ⊢
      simp [hr]

lemma dictGet_none_of_not_hasKey {s : PyDict} {k : String}
    (h : dictHasKey s k = false) : dictGet s k = none := by
  induction s with
  | nil => simp [dictGet]
  | cons p rest ih =>
    obtain ⟨k0, v0⟩ := p
    simp only [dictHasKey, List.any_cons, Bool.or_eq_false_iff] at h
    rw [dictGet_cons]
    have h0 : ¬ (k0 = k) := by
      intro he
      simp [he] at h
    simp only [h0, if_false]
    exact ih h.2

lemma dictHasKey_dictSet (s : PyDict) (k k' : String) (v : Json) :
    dictHasKey (dictSet s k v) k' = (dictHasKey s k' || (k == k')) := by
  induction s with
  | nil => simp [dictSet, dictHasKey]
  | cons p rest ih =>
    obtain ⟨k0, v0⟩ := p
    by_cases h0 : k0 = k
    · subst h0
      have hkk : (k0 == k0) = true := by simp
      simp only [dictSet, hkk, if_true]
      simp only [dictHasKey, List.any_cons]
      by_cases hb2 : k0 = k'
      · have hb : (k0 == k') = true := by simp [hb2]
        simp [hb2, hb]
      · have hb : (k0 == k') = false := by simp [hb2]
        simp [hb2, hb]
    · have hb : (k0 == k) = false := by simp [h0]
      simp only [dictSet, hb, Bool.false_eq_true, if_false]
      simp only [dictHasKey, List.any_cons] at ih ⊢
      rw [ih, Bool.or_assoc]

lemma dictSet_append_of_not_hasKey {s : PyDict} {k : String} (v : Json)
    (h : dictHasKey s k = false) : dictSet s k v = s ++ [(k, v)] := by
  induction s with
  | nil => simp [dictSet]
  | cons p rest ih =>
    obtain ⟨k0, v0⟩ := p
    simp only [dictHasKey, List.any_cons, Bool.or_eq_false_iff] at h
    have h0 : ¬ (k0 = k) := by
      intro he
      simp [he] at h
    simp [dictSet, h0]
    exact ih h.2

lemma head_step_append (t u : String) : (("step_" ++ t) ++ u).data.head? = some 's' := by
  obtain ⟨l⟩ := t
  obtain ⟨m⟩ := u
  rfl

lemma getLast_step_completed (t : String) :
    (("step_" ++ t) ++ "_completed").data.getLast? = some 'd' := by
  obtain ⟨l⟩ := t
  have h : (("step_" ++ String.mk l) ++ "_completed").data =
      ("step_" ++ String.mk l).data ++ "_completed".data := rfl
  rw [h, List.getLast?_append_of_ne_nil]
  · rfl
  · simp

lemma getLast_step_data (t : String) :
    (("step_" ++ t) ++ "_data").data.getLast? = some 'a' := by
  obtain ⟨l⟩ := t
  have h : (("step_" ++ String.mk l) ++ "_data").data =
      ("step_" ++ String.mk l).data ++ "_data".data := rfl
  rw [h, List.getLast?_append_of_ne_nil]
  · rfl
  · simp

lemma stepCompletedKey_ne_current_step (t : String) :
    ("step_" ++ t ++ "_completed") ≠ "current_step" := by
  intro h
  have h2 : ("step_" ++ t ++ "_completed").data.head? = ("current_step" : String).data.head? :=
    congrArg (fun s : String => s.data.head?) h
  rw [head_step_append] at h2
  exact absurd h2 (by decide)

lemma stepCompletedKey_ne_last_updated (t : String) :
    ("step_" ++ t ++ "_completed") ≠ "last_updated" := by
  intro h
  have h2 : ("step_" ++ t ++ "_completed").data.head? = ("last_updated" : String).data.head? :=
    congrArg (fun s : String => s.data.head?) h
  rw [head_step_append] at h2
  exact absurd h2 (by decide)

lemma stepDataKey_ne_current_step (t : String) :
    ("step_" ++ t ++ "_data") ≠ "current_step" := by
  intro h
  have h2 : ("step_" ++ t ++ "_data").data.head? = ("current_step" : String).data.head? :=
    congrArg (fun s : String => s.data.head?) h
  rw [head_step_append] at h2
  exact absurd h2 (by decide)

lemma stepDataKey_ne_last_updated (t : String) :
    ("step_" ++ t ++ "_data") ≠ "last_updated" := by
  intro h
  have h2 : ("step_" ++ t ++ "_data").data.head? = ("last_updated" : String).data.head? :=
    congrArg (fun s : String => s.data.head?) h
  rw [head_step_append] at h2
  exact absurd h2 (by decide)

lemma stepDataKey_ne_stepCompletedKey (t u : String) :
    ("step_" ++ t ++ "_data") ≠ ("step_" ++ u ++ "_completed") := by
  intro h
  have h2 : ("step_" ++ t ++ "_data").data.getLast? =
      ("step_" ++ u ++ "_completed").data.getLast? :=
    congrArg (fun s : String => s.data.getLast?) h
  rw [getLast_step_data, getLast_step_completed] at h2
  exact absurd h2 (by decide)

lemma stepCompletedKey_inj {i c : Int} (hi1 : 1 ≤ i) (hi8 : i ≤ 8)
    (hc1 : 1 ≤ c) (hc8 : c ≤ 8) (hne : i ≠ c) :
    ("step_" ++ toString i ++ "_completed") ≠ ("step_" ++ toString c ++ "_completed") := by
  interval_cases i <;> interval_cases c <;> revert hne <;> decide

/-- C6: for n between 1 and 8, mark_step_completed sets the step-n
completion flag; it advances current_step to n+1 when n is below 8 and
leaves current_step unchanged at n = 8; outside 1..8 it changes nothing. -/
theorem mark_step_completed_spec (s : PyDict) (n : Int) (now : String) :
    (1 ≤ n → n ≤ 8 →
      dictGet (mark_step_completed n now s) ("step_" ++ toString n ++ "_completed") =
        some (Json.bool true)
      ∧ (n < 8 →
          dictGet (mark_step_completed n now s) "current_step" = some (Json.num (n + 1)))
      ∧ (n = 8 →
          dictGet (mark_step_completed n now s) "current_step" = dictGet s "current_step"))
  ∧ (¬ (1 ≤ n ∧ n ≤ 8) → mark_step_completed n now s = s) := by
  constructor
  · intro h1 h8
    unfold mark_step_completed
    rw [if_pos ⟨h1, h8⟩]
    by_cases hlt : n < 8
    · rw [if_pos hlt]
      refine ⟨?_, fun _ => dictGet_dictSet_self _ _ _, fun he => by omega⟩
      rw [dictGet_dictSet_ne _ _ _ _ (stepCompletedKey_ne_current_step (toString n))]
      rw [dictGet_dictSet_ne _ _ _ _ (stepCompletedKey_ne_last_updated (toString n))]
      exact dictGet_dictSet_self _ _ _
    · rw [if_neg hlt]
      refine ⟨?_, fun hc => absurd hc hlt, fun _ => ?_⟩
      · rw [dictGet_dictSet_ne _ _ _ _ (stepCompletedKey_ne_last_updated (toString n))]
        exact dictGet_dictSet_self _ _ _
      · rw [dictGet_dictSet_ne _ _ _ _ (by decide : ("current_step" : String) ≠ "last_updated")]
        exact dictGet_dictSet_ne _ _ _ _
          (Ne.symm (stepCompletedKey_ne_current_step (toString n)))
  · intro hno
    unfold mark_step_completed
    rw [if_neg hno]

/-- Witness for C6: marking step 3 on the default state sets the flag and
advances current_step to 4; marking step 8 keeps current_step; marking
step 0 changes nothing. -/
theorem mark_step_completed_spec_witness :
    dictGet (mark_step_completed 3 "T1" (default_workflow_data "T0")) "step_3_completed" =
      some (Json.bool true)
  ∧ dictGet (mark_step_completed 3 "T1" (default_workflow_data "T0")) "current_step" =
      some (Json.num 4)
  ∧ dictGet (mark_step_completed 8 "T1" (default_workflow_data "T0")) "current_step" =
      dictGet (default_workflow_data "T0") "current_step"
  ∧ mark_step_completed 0 "T1" (default_workflow_data "T0") = default_workflow_data "T0" :=
  ⟨((mark_step_completed_spec (default_workflow_data "T0") 3 "T1").1
      (by decide) (by decide)).1,
   ((mark_step_completed_spec (default_workflow_data "T0") 3 "T1").1
      (by decide) (by decide)).2.1 (by decide),
   ((mark_step_completed_spec (default_workflow_data "T0") 8 "T1").1
      (by decide) (by decide)).2.2 rfl,
   (mark_step_completed_spec (default_workflow_data "T0") 0 "T1").2 (by decide)⟩

/-- The current_step value as main (app.py line 220) reads it:
workflow_data.get('current_step', 1), defaulting to 1 when missing. The
comparisons in the navigation code assume an int; a non-int value (which
would make them raise) is modelled as none, making the navigation a no-op.
-/
def app_current_step (s : PyDict) : Option Int :=
  match dictGet s "current_step" with
  | some (Json.num c) => some c
  | none => some 1
  | some _ => none

/-- The store operations of state_management.py together with the app.py
navigation actions that write current_step. sidebarNav is the unconditional
sidebar button write (app.py lines 198-200, buttons exist for steps 1-8);
prevButton and nextButton are the bottom navigation (app.py lines 327-346),
where only nextButton is gated on the current step's completion flag. -/
inductive StoreOp where
  | initSession (now : String)
  | markStep (n : Int) (now : String)
  | saveData (n : Int) (data : Json) (now : String)
  | setStep (n : Int)
  | importDoc (doc : Option Json) (now : String)
  | sidebarNav (n : Int)
  | prevButton
  | nextButton

/-- app.py render_navigation_buttons, Previous branch (lines 331-335). -/
def prev_button (s : PyDict) : PyDict :=
  match app_current_step s with
  | some c => if 1 < c then dictSet s "current_step" (Json.num (c - 1)) else s
  | none => s

/-- app.py render_navigation_buttons, Next branch (lines 337-346): advances
only when the current step's completion flag is truthy (the store only ever
writes booleans into those keys). -/
def next_button (s : PyDict) : PyDict :=
  match app_current_step s with
  | some c =>
      if c < 8 then
        if isTrueFlag (dictGet s ("step_" ++ toString c ++ "_completed")) then
          dictSet s "current_step" (Json.num (c + 1))
        else s
      else s
  | none => s

/-- One store or navigation operation applied to the workflow dict. -/
def apply_store_op : StoreOp → PyDict → PyDict
  | StoreOp.initSession now, s => init_session_state now s
  | StoreOp.markStep n now, s => mark_step_completed n now s
  | StoreOp.saveData n data now, s => save_step_data n data now s
  | StoreOp.setStep n, s => set_current_step n s
  | StoreOp.importDoc doc now, s => importedState (import_project_state doc now s)
  | StoreOp.sidebarNav n, s =>
      if 1 ≤ n ∧ n ≤ 8 then dictSet s "current_step" (Json.num n) else s
  | StoreOp.prevButton, s => prev_button s
  | StoreOp.nextButton, s => next_button s

/-- The workflow dict after running a sequence of operations from the
freshly created default state. -/
def run_store_ops (now0 : String) (ops : List StoreOp) : PyDict :=
  ops.foldl (fun s op => apply_store_op op s) (default_workflow_data now0)

/-- The completion flag of step i, as a boolean. -/
def flagTrue (s : PyDict) (i : Int) : Bool :=
  isTrueFlag (dictGet s ("step_" ++ toString i ++ "_completed"))

/-- The spec invariant: current_step exceeds i+1 only if step i's completion
flag is true (stated for the steps 1..8 of the workflow). -/
def step_gating_invariant (s : PyDict) : Prop :=
  ∀ c : Int, dictGet s "current_step" = some (Json.num c) →
    ∀ i : Int, 1 ≤ i → i ≤ 8 → i + 1 < c → flagTrue s i = true

/-- Counterexample for C7: set_current_step is itself one of the store
operations, and it writes current_step without checking any completion
flag, so one operation from the initial state already violates the gating
invariant: after set_current_step(5), current_step = 5 exceeds 1 + 1 while
step 1 is not completed. -/
theorem step_gating_invariant_violated :
    ¬ step_gating_invariant (run_store_ops "T0" [StoreOp.setStep 5]) := by
  intro h
  have h5 : dictGet (run_store_ops "T0" [StoreOp.setStep 5]) "current_step" =
      some (Json.num 5) := rfl
  have hf := h 5 h5 1 (by decide) (by decide) (by decide)
  exact absurd hf (by decide)

/-- The operations that remain after removing the unconditional
current_step writers (set_current_step, the sidebar navigation, and
import_project_state) and restricting mark_step_completed to the currently
rendered step, which is how the eight step modules invoke it. -/
inductive GatedOp where
  | initSession (now : String)
  | saveData (n : Int) (data : Json) (now : String)
  | markCurrent (now : String)
  | prevButton
  | nextButton

/-- One gated operation applied to the workflow dict. -/
def apply_gated_op : GatedOp → PyDict → PyDict
  | GatedOp.initSession now, s => init_session_state now s
  | GatedOp.saveData n data now, s => save_step_data n data now s
  | GatedOp.markCurrent now, s =>
      match app_current_step s with
      | some c => mark_step_completed c now s
      | none => s
  | GatedOp.prevButton, s => prev_button s
  | GatedOp.nextButton, s => next_button s

/-- The workflow dict after running gated operations from the default
state. -/
def run_gated_ops (now0 : String) (ops : List GatedOp) : PyDict :=
  ops.foldl (fun s op => apply_gated_op op s) (default_workflow_data now0)

/-- The inductive invariant: current_step holds an int and every step
strictly below it is completed. -/
def gated_inv (s : PyDict) : Prop :=
  (∃ c : Int, dictGet s "current_step" = some (Json.num c))
  ∧ ∀ c : Int, dictGet s "current_step" = some (Json.num c) →
      ∀ i : Int, 1 ≤ i → i < c → flagTrue s i = true

lemma isTrueFlag_eq_true : ∀ {o : Option Json}, isTrueFlag o = true →
    o = some (Json.bool true)
  | some (Json.bool true), _ => rfl

lemma foldl_backfill_preserves (k : String) (v : Json) :
    ∀ (l : List (String × Json)) (s : PyDict), dictGet s k = some v →
      dictGet (l.foldl
        (fun acc kv => if dictHasKey acc kv.1 then acc else dictSet acc kv.1 kv.2) s) k =
        some v := by
  intro l
  induction l with
  | nil => intro s h; exact h
  | cons kv l ih =>
    intro s h
    simp only [List.foldl_cons]
    by_cases hk : dictHasKey s kv.1 = true
    · rw [if_pos hk]
      exact ih s h
    · rw [if_neg hk]
      apply ih
      rw [dictGet_dictSet_ne]
      · exact h
      · intro he
        exact hk (he ▸ dictHasKey_of_dictGet h)

lemma init_session_preserves {s : PyDict} {k : String} {v : Json} (now : String)
    (h : dictGet s k = some v) :
    dictGet (init_session_state now s) k = some v :=
  foldl_backfill_preserves k v (default_workflow_data now) s h

lemma gated_inv_preserved (op : GatedOp) (s : PyDict) (h : gated_inv s) :
    gated_inv (apply_gated_op op s) := by
  obtain ⟨⟨c0, hc0⟩, hinv⟩ := h
  cases op with
  | initSession now =>
    simp only [apply_gated_op]
    refine ⟨⟨c0, init_session_preserves now hc0⟩, ?_⟩
    intro c hc i h1 hic
    have hcc := init_session_preserves now hc0
    rw [hc] at hcc
    simp only [Option.some.injEq, Json.num.injEq] at hcc
    have hf := hinv c0 hc0 i h1 (by omega)
    have hfs := isTrueFlag_eq_true hf
    unfold flagTrue
    rw [init_session_preserves now hfs]
    rfl
  | saveData n data now =>
    simp only [apply_gated_op]
    unfold save_step_data
    by_cases hn : 1 ≤ n ∧ n ≤ 8
    · rw [if_pos hn]
      refine ⟨⟨c0, ?_⟩, ?_⟩
      · rw [dictGet_dictSet_ne _ _ _ _ (by decide : ("current_step" : String) ≠ "last_updated"),
            dictGet_dictSet_ne _ _ _ _ (Ne.symm (stepDataKey_ne_current_step (toString n)))]
        exact hc0
      · intro c hc i h1 hic
        rw [dictGet_dictSet_ne _ _ _ _ (by decide : ("current_step" : String) ≠ "last_updated"),
            dictGet_dictSet_ne _ _ _ _ (Ne.symm (stepDataKey_ne_current_step (toString n))),
            hc0] at hc
        simp only [Option.some.injEq, Json.num.injEq] at hc
        unfold flagTrue
        rw [dictGet_dictSet_ne _ _ _ _ (stepCompletedKey_ne_last_updated (toString i)),
            dictGet_dictSet_ne _ _ _ _
              (Ne.symm (stepDataKey_ne_stepCompletedKey (toString n) (toString i)))]
        exact hinv c0 hc0 i h1 (by omega)
    · rw [if_neg hn]
      exact ⟨⟨c0, hc0⟩, hinv⟩
  | markCurrent now =>
    simp only [apply_gated_op]
    have hac : app_current_step s = some c0 := by
      unfold app_current_step
      rw [hc0]
    simp only [hac]
    unfold mark_step_completed
    by_cases hr : 1 ≤ c0 ∧ c0 ≤ 8
    · rw [if_pos hr]
      by_cases hlt : c0 < 8
      · rw [if_pos hlt]
        refine ⟨⟨c0 + 1, dictGet_dictSet_self _ _ _⟩, ?_⟩
        intro c hc i h1 hic
        rw [dictGet_dictSet_self] at hc
        simp only [Option.some.injEq, Json.num.injEq] at hc
        unfold flagTrue
        rw [dictGet_dictSet_ne _ _ _ _ (stepCompletedKey_ne_current_step (toString i)),
            dictGet_dictSet_ne _ _ _ _ (stepCompletedKey_ne_last_updated (toString i))]
        by_cases hieq : i = c0
        · subst hieq
          rw [dictGet_dictSet_self]
          rfl
        · rw [dictGet_dictSet_ne _ _ _ _
              (stepCompletedKey_inj h1 (by omega) hr.1 hr.2 hieq)]
          exact hinv c0 hc0 i h1 (by omega)
      · rw [if_neg hlt]
        refine ⟨⟨c0, ?_⟩, ?_⟩
        · rw [dictGet_dictSet_ne _ _ _ _
                (by decide : ("current_step" : String) ≠ "last_updated"),
              dictGet_dictSet_ne _ _ _ _
                (Ne.symm (stepCompletedKey_ne_current_step (toString c0)))]
          exact hc0
        · intro c hc i h1 hic
          rw [dictGet_dictSet_ne _ _ _ _
                (by decide : ("current_step" : String) ≠ "last_updated"),
              dictGet_dictSet_ne _ _ _ _
                (Ne.symm (stepCompletedKey_ne_current_step (toString c0))),
              hc0] at hc
          simp only [Option.some.injEq, Json.num.injEq] at hc
          unfold flagTrue
          rw [dictGet_dictSet_ne _ _ _ _ (stepCompletedKey_ne_last_updated (toString i))]
          by_cases hieq : i = c0
          · subst hieq
            rw [dictGet_dictSet_self]
            rfl
          · rw [dictGet_dictSet_ne _ _ _ _
                (stepCompletedKey_inj h1 (by omega) hr.1 hr.2 hieq)]
            exact hinv c0 hc0 i h1 (by omega)
    · rw [if_neg hr]
      exact ⟨⟨c0, hc0⟩, hinv⟩
  | prevButton =>
    simp only [apply_gated_op]
    unfold prev_button
    have hac : app_current_step s = some c0 := by
      unfold app_current_step
      rw [hc0]
    simp only [hac]
    by_cases h1c : 1 < c0
    · rw [if_pos h1c]
      refine ⟨⟨c0 - 1, dictGet_dictSet_self _ _ _⟩, ?_⟩
      intro c hc i h1 hic
      rw [dictGet_dictSet_self] at hc
      simp only [Option.some.injEq, Json.num.injEq] at hc
      unfold flagTrue
      rw [dictGet_dictSet_ne _ _ _ _ (stepCompletedKey_ne_current_step (toString i))]
      exact hinv c0 hc0 i h1 (by omega)
    · rw [if_neg h1c]
      exact ⟨⟨c0, hc0⟩, hinv⟩
  | nextButton =>
    simp only [apply_gated_op]
    unfold next_button
    have hac : app_current_step s = some c0 := by
      unfold app_current_step
      rw [hc0]
    simp only [hac]
    by_cases h8c : c0 < 8
    · rw [if_pos h8c]
      by_cases hflag :
          isTrueFlag (dictGet s ("step_" ++ toString c0 ++ "_completed")) = true
      · rw [if_pos hflag]
        refine ⟨⟨c0 + 1, dictGet_dictSet_self _ _ _⟩, ?_⟩
        intro c hc i h1 hic
        rw [dictGet_dictSet_self] at hc
        simp only [Option.some.injEq, Json.num.injEq] at hc
        unfold flagTrue
        rw [dictGet_dictSet_ne _ _ _ _ (stepCompletedKey_ne_current_step (toString i))]
        by_cases hieq : i = c0
        · subst hieq
          exact hflag
        · exact hinv c0 hc0 i h1 (by omega)
      · rw [if_neg hflag]
        exact ⟨⟨c0, hc0⟩, hinv⟩
    · rw [if_neg h8c]
      exact ⟨⟨c0, hc0⟩, hinv⟩

/-- C7 as amended: the gating invariant does hold for every state reachable
from the initial state once the unconditional current_step writers
(set_current_step, the sidebar navigation buttons, and import_project_state)
are excluded and mark_step_completed is applied at the currently rendered
step, as the step modules do: after initialize, save_step_data, mark-current
and the gated Previous/Next navigation, current_step exceeds i+1 only if
step i's completion flag is true. -/
theorem gated_reachable_invariant (now0 : String) (ops : List GatedOp) :
    step_gating_invariant (run_gated_ops now0 ops) := by
  have key : ∀ (l : List GatedOp) (s : PyDict), gated_inv s →
      gated_inv (l.foldl (fun st op => apply_gated_op op st) s) := by
    intro l
    induction l with
    | nil => intro s h; exact h
    | cons op l ih =>
      intro s h
      exact ih _ (gated_inv_preserved op s h)
  have hinit : gated_inv (default_workflow_data now0) := by
    refine ⟨⟨1, rfl⟩, ?_⟩
    intro c hc i h1 hic
    have h0 : dictGet (default_workflow_data now0) "current_step" = some (Json.num 1) := rfl
    rw [h0] at hc
    simp only [Option.some.injEq, Json.num.injEq] at hc
    omega
  have h := key ops (default_workflow_data now0) hinit
  intro c hc i h1 h8 hic
  exact h.2 c hc i h1 (by omega)

/-- Witness for C7 as amended: after three mark-current operations the state
has current_step 4, and the theorem instantiated there yields that step 1 is
completed. -/
theorem gated_reachable_invariant_witness :
    flagTrue (run_gated_ops "T0"
      [GatedOp.markCurrent "T1", GatedOp.markCurrent "T2", GatedOp.markCurrent "T3"]) 1 =
      true :=
  gated_reachable_invariant "T0"
    [GatedOp.markCurrent "T1", GatedOp.markCurrent "T2", GatedOp.markCurrent "T3"]
    4 rfl 1 (by decide) (by decide) (by decide)

/-- The parsed import document lacks a required field: the text failed to
parse, or the membership test for project_name (checked first) or
current_step evaluates to false. -/
def docMissingRequired : Option Json → Bool
  | none => true
  | some j =>
    match jsonFieldTest j "project_name", jsonFieldTest j "current_step" with
    | some false, _ => true
    | some true, some false => true
    | _, _ => false

/-- C8: whenever the uploaded text is not valid JSON or its parse lacks the
project_name or current_step field, import_project_state returns False and
leaves the prior workflow state completely unchanged — no partial import. -/
theorem import_project_state_rejects (doc : Option Json) (now : String) (s : PyDict)
    (h : docMissingRequired doc = true) :
    import_project_state doc now s = ImportOutcome.ret false s := by
  cases doc with
  | none => rfl
  | some j =>
    simp only [docMissingRequired] at h
    simp only [import_project_state]
    rcases hp : jsonFieldTest j "project_name" with _ | b
    · rw [hp] at h
      exact absurd h Bool.false_ne_true
    · cases b with
      | false => simp [hp]
      | true =>
        rw [hp] at h
        rcases hc : jsonFieldTest j "current_step" with _ | b2
        · rw [hc] at h
          exact absurd h Bool.false_ne_true
        · cases b2 with
          | false => simp [hp, hc]
          | true =>
            rw [hc] at h
            exact absurd h Bool.false_ne_true

/-- Witness for C8: a document with project_name but no current_step is
rejected and the default state is untouched. -/
theorem import_project_state_rejects_witness :
    import_project_state (some (Json.obj [("project_name", Json.str "X")])) "T1"
      (default_workflow_data "T0") =
      ImportOutcome.ret false (default_workflow_data "T0") :=
  import_project_state_rejects (some (Json.obj [("project_name", Json.str "X")])) "T1"
    (default_workflow_data "T0") (by decide)

lemma dictSet_mem_self {s : PyDict} {k : String} {v : Json}
    (hmem : (k, v) ∈ s) (hnd : (s.map Prod.fst).Nodup) : dictSet s k v = s := by
  induction s with
  | nil => cases hmem
  | cons p rest ih =>
    obtain ⟨k0, v0⟩ := p
    simp only [List.map_cons, List.nodup_cons] at hnd
    rcases List.mem_cons.mp hmem with he | hm
    · have hk : k = k0 := congrArg Prod.fst he
      have hv : v = v0 := congrArg Prod.snd he
      subst hk
      subst hv
      simp [dictSet]
    · have hk0 : ¬ (k0 = k) := by
        intro he2
        exact hnd.1 (he2 ▸ (List.mem_map.mpr ⟨(k, v), hm, rfl⟩))
      simp [dictSet, hk0, ih hm hnd.2]

lemma dictUpdate_sub {s : PyDict} (hnd : (s.map Prod.fst).Nodup) :
    ∀ l : List (String × Json), (∀ kv ∈ l, kv ∈ s) → dictUpdate s l = s := by
  intro l
  induction l with
  | nil => intro _; rfl
  | cons kv l ih =>
    intro hsub
    unfold dictUpdate at ih ⊢
    simp only [List.foldl_cons]
    rw [dictSet_mem_self (hsub kv (List.mem_cons_self _ _)) hnd]
    exact ih (fun x hx => hsub x (List.mem_cons_of_mem _ hx))

lemma dictUpdate_self {s : PyDict} (hnd : (s.map Prod.fst).Nodup) :
    dictUpdate s s = s :=
  dictUpdate_sub hnd s (fun _ hx => hx)

/-- C9 as amended: for a well-formed workflow dict (unique keys, no
exported_at key yet) containing project_name and current_step, importing an
export round-trips with result True, and the resulting state is the
original plus the added exported_at field and with last_updated refreshed
to the import time — every other field is reproduced unchanged. -/
theorem export_import_roundtrip (s : PyDict) (t1 t2 : String)
    (hnd : (s.map Prod.fst).Nodup)
    (hpn : dictHasKey s "project_name" = true)
    (hcs : dictHasKey s "current_step" = true)
    (hex : dictHasKey s "exported_at" = false) :
    import_project_state (some (Json.obj (export_project_state t1 s))) t2 s =
      ImportOutcome.ret true
        (dictSet (dictSet s "exported_at" (Json.str t1)) "last_updated" (Json.str t2)) := by
  have hexp : dictSet s "exported_at" (Json.str t1) = s ++ [("exported_at", Json.str t1)] :=
    dictSet_append_of_not_hasKey _ hex
  have h1 : jsonFieldTest (Json.obj (export_project_state t1 s)) "project_name" =
      some true := by
    simp only [jsonFieldTest, export_project_state]
    rw [dictHasKey_dictSet, hpn]
    simp
  have h2 : jsonFieldTest (Json.obj (export_project_state t1 s)) "current_step" =
      some true := by
    simp only [jsonFieldTest, export_project_state]
    rw [dictHasKey_dictSet, hcs]
    simp
  have hupdate : dictUpdate s (export_project_state t1 s) =
      dictSet s "exported_at" (Json.str t1) := by
    unfold export_project_state
    rw [hexp]
    unfold dictUpdate
    rw [List.foldl_append]
    rw [show List.foldl (fun acc kv => dictSet acc kv.1 kv.2) s s = s from
         dictUpdate_self hnd]
    simp only [List.foldl_cons, List.foldl_nil]
    exact hexp
  simp only [import_project_state]
  rw [h1, h2]
  simp only [hupdate]

/-- Witness for C9 as amended, at the default state and concrete times. -/
theorem export_import_roundtrip_witness :
    import_project_state
      (some (Json.obj (export_project_state "T1" (default_workflow_data "T0")))) "T2"
      (default_workflow_data "T0") =
      ImportOutcome.ret true
        (dictSet (dictSet (default_workflow_data "T0") "exported_at" (Json.str "T1"))
          "last_updated" (Json.str "T2")) :=
  export_import_roundtrip (default_workflow_data "T0") "T1" "T2"
    (by decide) (by decide) (by decide) (by decide)

/-- Counterexample for C9 as stated: the round-trip import returns True but
the resulting state is NOT identical to the original modulo the added
exported_at field, because import_project_state also overwrites
last_updated with the import time (T2 here, against the original T0). -/
theorem export_import_roundtrip_not_identity :
    importReturnedTrue (import_project_state
        (some (Json.obj (export_project_state "T1" (default_workflow_data "T0")))) "T2"
        (default_workflow_data "T0")) = true
  ∧ dictErase (importedState (import_project_state
        (some (Json.obj (export_project_state "T1" (default_workflow_data "T0")))) "T2"
        (default_workflow_data "T0"))) "exported_at" ≠ default_workflow_data "T0" := by
  constructor
  · rfl
  · intro h
    have h2 : getStrField (dictErase (importedState (import_project_state
          (some (Json.obj (export_project_state "T1" (default_workflow_data "T0")))) "T2"
          (default_workflow_data "T0"))) "exported_at") "last_updated" =
        getStrField (default_workflow_data "T0") "last_updated" :=
      congrArg (fun d => getStrField d "last_updated") h
    exact absurd h2 (by decide)

/-- C10: load_project shallow-merges any parsed JSON object into the
session state with no required-field validation; in particular a document
missing both project_name and current_step is rejected by
import_project_state yet accepted and applied by load_project. -/
theorem load_project_skips_validation :
    (∀ (kvs : List (String × Json)) (s : PyDict),
        load_project (some (Json.obj kvs)) s = LoadOutcome.loaded (dictUpdate s kvs))
  ∧ (∀ (s : PyDict) (now : String),
        import_project_state (some (Json.obj [("foo", Json.num 1)])) now s =
          ImportOutcome.ret false s)
  ∧ (∀ s : PyDict,
        load_project (some (Json.obj [("foo", Json.num 1)])) s =
          LoadOutcome.loaded (dictSet s "foo" (Json.num 1))) :=
  ⟨fun _ _ => rfl, fun _ _ => rfl, fun _ => rfl⟩

/-- Python text.find(c) on the character list: index of the first
occurrence. -/
def findChar : List Char → Char → Option Nat
  | [], _ => none
  | c :: cs, t => if c == t then some 0 else (findChar cs t).map (fun n => n + 1)

/-- Python text.find(c) for a string. -/
def firstIdxOf (s : String) (c : Char) : Option Nat :=
  findChar s.toList c

/-- Python text.rfind(c): index of the last occurrence. -/
def lastIdxOf (s : String) (c : Char) : Option Nat :=
  (findChar s.toList.reverse c).map (fun k => s.toList.length - 1 - k)

/-- Does the string contain the character anywhere? -/
def hasChar (t : String) (c : Char) : Bool :=
  t.toList.any (fun x => x == c)

/-- Skip JSON whitespace. -/
def skipWs : List Char → List Char
  | [] => []
  | c :: cs =>
      if c == ' ' || c == '\t' || c == '\n' || c == '\r' then skipWs cs else c :: cs

/-- The single-character JSON string escapes (unicode escapes are not
modelled). -/
def escChar (e : Char) : Option Char :=
  if e == '"' then some '"'
  else if e == '\\' then some '\\'
  else if e == '/' then some '/'
  else if e == 'n' then some '\n'
  else if e == 't' then some '\t'
  else if e == 'r' then some '\r'
  else if e == 'b' then some (Char.ofNat 8)
  else if e == 'f' then some (Char.ofNat 12)
  else none

/-- Parse the body of a JSON string after the opening quote, returning the
decoded characters and the input after the closing quote. -/
def parseJStr : List Char → Option (List Char × List Char)
  | [] => none
  | '"' :: rest => some ([], rest)
  | '\\' :: e :: rest =>
      match escChar e with
      | some c => (parseJStr rest).map (fun p => (c :: p.1, p.2))
      | none => none
  | c :: rest => (parseJStr rest).map (fun p => (c :: p.1, p.2))

/-- Digit run to a natural number. -/
def digitsToNat (l : List Char) : Nat :=
  l.foldl (fun n c => n * 10 + (c.toNat - 48)) 0

/-- Parse an unsigned integer literal; fractional and exponent forms are
not modelled (numeric literals are modelled as integers). -/
def parseNumTail (cs : List Char) : Option (Int × List Char) :=
  let digits := cs.takeWhile (fun c => c.isDigit)
  let rest := cs.dropWhile (fun c => c.isDigit)
  if digits.isEmpty then none
  else
    match rest with
    | '.' :: _ => none
    | 'e' :: _ => none
    | 'E' :: _ => none
    | _ => some ((digitsToNat digits : Int), rest)

mutual

/-- Parse one JSON value (fuelled recursive-descent model of json.loads). -/
def parseVal : Nat → List Char → Option (Json × List Char)
  | 0, _ => none
  | Nat.succ f, cs =>
    match skipWs cs with
    | [] => none
    | '\x7b' :: rest =>
        (match skipWs rest with
         | '\x7d' :: rest2 => some (Json.obj [], rest2)
         | _ => (parseMembers f rest).map (fun p => (Json.obj p.1, p.2)))
    | '[' :: rest =>
        (match skipWs rest with
         | ']' :: rest2 => some (Json.arr [], rest2)
         | _ => (parseElems f rest).map (fun p => (Json.arr p.1, p.2)))
    | '"' :: rest => (parseJStr rest).map (fun p => (Json.str (String.mk p.1), p.2))
    | '-' :: rest => (parseNumTail rest).map (fun p => (Json.num (-p.1), p.2))
    | c :: rest =>
        if c.isDigit then
          (parseNumTail (c :: rest)).map (fun p => (Json.num p.1, p.2))
        else if listStarts (c :: rest) ("true".toList) then
          some (Json.bool true, (c :: rest).drop 4)
        else if listStarts (c :: rest) ("false".toList) then
          some (Json.bool false, (c :: rest).drop 5)
        else if listStarts (c :: rest) ("null".toList) then
          some (Json.null, (c :: rest).drop 4)
        else none

/-- Parse the members of a JSON object after the opening brace. -/
def parseMembers : Nat → List Char → Option (List (String × Json) × List Char)
  | 0, _ => none
  | Nat.succ f, cs =>
    match skipWs cs with
    | '"' :: rest =>
      (match parseJStr rest with
       | some (key, rest2) =>
         (match skipWs rest2 with
          | ':' :: rest3 =>
            (match parseVal f rest3 with
             | some (v, rest4) =>
               (match skipWs rest4 with
                | ',' :: rest5 =>
                    (parseMembers f rest5).map
                      (fun p => ((String.mk key, v) :: p.1, p.2))
                | '\x7d' :: rest5 => some ([(String.mk key, v)], rest5)
                | _ => none)
             | none => none)
          | _ => none)
       | none => none)
    | _ => none

/-- Parse the elements of a JSON array after the opening bracket. -/
def parseElems : Nat → List Char → Option (List Json × List Char)
  | 0, _ => none
  | Nat.succ f, cs =>
    match parseVal f cs with
    | some (v, rest) =>
      (match skipWs rest with
       | ',' :: rest2 => (parseElems f rest2).map (fun p => (v :: p.1, p.2))
       | ']' :: rest2 => some ([v], rest2)
       | _ => none)
    | none => none

end

/-- json.loads on a string: parse one value and require only whitespace to
remain. The fuel bound exceeds any possible nesting depth of the input. -/
def json_loads (t : String) : Option Json :=
  match parseVal (2 * t.length + 4) t.toList with
  | some (j, rest) => if (skipWs rest).isEmpty then some j else none
  | none => none

/-- Modelled from the spec: the slice taken by the extractJSON operation of
the provider dispatcher, whose host module (outputs/output_generator.py) is
not under src/ — from the first opening brace to the last closing brace
inclusive, like Python text[first:last+1], defined whenever both braces
occur. -/
def sliceFirstLast (text : String) : Option String :=
  match firstIdxOf text '\x7b', lastIdxOf text '\x7d' with
  | some i, some j => some (String.mk ((text.toList.drop i).take (j + 1 - i)))
  | _, _ => none

/-- Modelled from the spec: extractJSON(text) — find the first opening and
last closing brace, slice between them inclusive, and attempt a structured
parse of the slice; fail with a ParseError when no brace pair exists or the
slice is not valid JSON. -/
def extractJSON (text : String) : Except String Json :=
  match sliceFirstLast text with
  | none => Except.error "ParseError: no JSON object found in response"
  | some slice =>
    match json_loads slice with
    | some v => Except.ok v
    | none => Except.error "ParseError: response contained invalid JSON"

lemma findChar_none_of_any_false :
    ∀ (l : List Char) (c : Char), l.any (fun x => x == c) = false → findChar l c = none := by
  intro l c
  induction l with
  | nil => intro _; rfl
  | cons x xs ih =>
    intro h
    simp only [List.any_cons, Bool.or_eq_false_iff] at h
    simp only [findChar, h.1, Bool.false_eq_true, if_false]
    rw [ih h.2]
    rfl

lemma any_reverse_eq (l : List Char) (p : Char → Bool) :
    l.reverse.any p = l.any p := by
  rcases hb : l.any p with _ | _
  · rw [List.any_eq_false] at hb
    rw [List.any_eq_false]
    intro x hx
    exact hb x (List.mem_reverse.mp hx)
  · rw [List.any_eq_true] at hb
    obtain ⟨x, hx, hp⟩ := hb
    rw [List.any_eq_true]
    exact ⟨x, List.mem_reverse.mpr hx, hp⟩

/-- C5: extractJSON succeeds on text embedding one JSON object, extracting
exactly the parsed object; it fails on text with no braces; on text with
several objects it slices from the first opening to the last closing brace
inclusive (the documented quirk); and whenever the text lacks an opening or
a closing brace it returns the no-object ParseError. -/
theorem extractJSON_spec :
    extractJSON "prefix \x7b\"a\":1\x7d suffix" = Except.ok (Json.obj [("a", Json.num 1)])
  ∧ extractJSON "no braces here" =
      Except.error "ParseError: no JSON object found in response"
  ∧ sliceFirstLast "\x7ba: 1\x7d ... \x7bb: 2\x7d" = some "\x7ba: 1\x7d ... \x7bb: 2\x7d"
  ∧ (∀ t : String, (hasChar t '\x7b' = false ∨ hasChar t '\x7d' = false) →
      extractJSON t = Except.error "ParseError: no JSON object found in response") := by
  refine ⟨rfl, rfl, rfl, ?_⟩
  intro t ht
  have hs : sliceFirstLast t = none := by
    unfold sliceFirstLast
    rcases ht with ht | ht
    · rw [show firstIdxOf t '\x7b' = none from findChar_none_of_any_false _ _ ht]
    · have hl : lastIdxOf t '\x7d' = none := by
        unfold lastIdxOf
        rw [findChar_none_of_any_false _ _ (by rw [any_reverse_eq]; exact ht)]
        rfl
      rw [hl]
      rcases firstIdxOf t '\x7b' with _ | i <;> rfl
  unfold extractJSON
  rw [hs]

/-- Witness for C5: a concrete brace-free text takes the ParseError path. -/
theorem extractJSON_spec_witness :
    extractJSON "hello world" =
      Except.error "ParseError: no JSON object found in response" :=
  extractJSON_spec.2.2.2 "hello world" (Or.inl rfl)
